import Mathlib

/-!
Verification of the Trust Network Tracker
(`src/tools/trust_network.py` of the coherence-weaver repository).

The tracker keeps a map from agent id to a trust profile, updates running
averages of reliability and interaction quality, merges observed strength
labels, and computes collaboration recommendations for groups of agents.

Modelling conventions of this shallow embedding:
* Python floats are modelled by `ℚ` (exact arithmetic; the spec itself reads
  "within floating-point tolerance").
* The in-memory dict `self.trust_network` is an insertion-ordered association
  list `List (String × AgentProfile)`, matching Python dict semantics
  (first occurrence wins on lookup, updates happen in place, fresh keys are
  appended).
* Python exceptions are modelled with `Except PyError`; the only reachable
  exception in this subsystem is `ZeroDivisionError` (division by
  `len(agent_ids)`).
* Optional keyword arguments are `Option` values and the code's truthiness
  tests (`if collaboration_style:` / `if strengths:`) test for `none`, the
  empty string, or the empty list, exactly as Python does.
-/

set_option autoImplicit false

namespace TrustNetwork

/-- One agent's trust profile, mirroring the dict created in
`update_trust` (`"interactions"`, `"reliability"`, `"interaction_quality"`,
`"collaboration_style"`, `"strengths"`, `"areas_for_growth"`). -/
structure AgentProfile where
  interactions : Nat
  reliability : ℚ
  interaction_quality : ℚ
  collaboration_style : String
  strengths : List String
  areas_for_growth : List String
deriving Repr, DecidableEq

/-- The profile installed for an unseen agent id at the start of
`update_trust`: zero counts and averages, style `"unknown"`, empty lists. -/
def freshProfile : AgentProfile :=
  ⟨0, 0, 0, "unknown", [], []⟩

/-- The in-memory trust network: insertion-ordered map from agent id to
profile (Python dict). -/
abbrev Store := List (String × AgentProfile)

/-- Dict lookup: `self.trust_network[agent_id]` / the `in` test. -/
def lookupAgent : Store → String → Option AgentProfile
  | [], _ => none
  | (k, p) :: rest, agent_id =>
      if k = agent_id then some p else lookupAgent rest agent_id

/-- Dict write: replace the binding if the key exists, else append the new
binding (Python dicts keep insertion order). -/
def setAgent : Store → String → AgentProfile → Store
  | [], agent_id, p => [(agent_id, p)]
  | (k, q) :: rest, agent_id, p =>
      if k = agent_id then (k, p) :: rest else (k, q) :: setAgent rest agent_id p

/-- The profile `update_trust` works on: the stored one, or the fresh one the
code installs first for an unseen id. -/
def effProfile (store : Store) (agent_id : String) : AgentProfile :=
  (lookupAgent store agent_id).getD freshProfile

/-- One iteration of the `for strength in strengths:` loop body:
append the value unless it is already present. -/
def insertNew (acc : List String) (s : String) : List String :=
  if s ∈ acc then acc else acc ++ [s]

/-- The full `for` loop: fold every supplied label into the stored list,
skipping labels already present. -/
def mergeUnique : List String → List String → List String
  | acc, [] => acc
  | acc, s :: rest => mergeUnique (insertNew acc s) rest

/-- `if strengths:` guard plus the merge loop: a missing or empty argument
leaves the stored list unchanged. -/
def applyListArg (cur : List String) : Option (List String) → List String
  | none => cur
  | some l => if l.isEmpty then cur else mergeUnique cur l

/-- `if collaboration_style:` guard: a missing or empty-string argument keeps
the stored style, anything else overwrites it. -/
def applyStyleArg (cur : String) : Option String → String
  | none => cur
  | some s => if s = "" then cur else s

/-- `TrustNetworkTracker.update_trust`: create the profile lazily, increment
the interaction count, fold the new reliability and quality scores into the
running averages with `(old * (n - 1) + new) / n` where `n` is the count
after incrementing, then apply the optional style/strengths/areas arguments.
Returns the updated store and the updated profile (the method's return
value). Persistence (`_save_network`) only mirrors the in-memory map and
swallows I/O errors, so it has no effect on the data model. -/
def update_trust (store : Store) (agent_id : String)
    (interaction_quality reliability_score : ℚ)
    (collaboration_style : Option String)
    (strengths : Option (List String))
    (areas_for_growth : Option (List String)) : Store × AgentProfile :=
  let p0 := effProfile store agent_id
  let n : Nat := p0.interactions + 1
  let p1 : AgentProfile :=
    ⟨n,
     (p0.reliability * ((n : ℚ) - 1) + reliability_score) / (n : ℚ),
     (p0.interaction_quality * ((n : ℚ) - 1) + interaction_quality) / (n : ℚ),
     applyStyleArg p0.collaboration_style collaboration_style,
     applyListArg p0.strengths strengths,
     applyListArg p0.areas_for_growth areas_for_growth⟩
  (setAgent store agent_id p1, p1)

/-- Result of `get_agent_profile`: the profile, or the
`\x7b"error": "Agent not found in trust network"\x7d` dict. -/
inductive ProfileResult where
  | found (profile : AgentProfile)
  | notFound
deriving Repr, DecidableEq

/-- `TrustNetworkTracker.get_agent_profile`. -/
def get_agent_profile (store : Store) (agent_id : String) : ProfileResult :=
  match lookupAgent store agent_id with
  | some p => ProfileResult.found p
  | none => ProfileResult.notFound

/-- The only Python exception reachable in this subsystem:
`ZeroDivisionError` from `sum(...) / len(agent_ids)`. -/
inductive PyError where
  | zeroDivisionError
deriving Repr, DecidableEq

/-- The collaboration-recommendation dict returned on success. -/
structure Recommendation where
  collaboration_potential : String
  collaboration_score : ℚ
  recommended_approach : List String
  potential_challenges : List String
  common_strengths : List String
  unique_strengths : List String
  agents : List (String × AgentProfile)
deriving Repr, DecidableEq

/-- Normal (non-exceptional) outcome of `get_collaboration_recommendation`:
either the structured not-found dict listing the missing ids, or the
recommendation dict. -/
inductive RecResult where
  | notFound (missing : List String)
  | ok (r : Recommendation)
deriving Repr, DecidableEq

/-- The tier chain applied to the (unrounded) collaboration score:
`>= 0.8` very high, `>= 0.6` high, `>= 0.4` moderate, else challenging. -/
def collaborationPotential (score : ℚ) : String :=
  if 8/10 ≤ score then "very high"
  else if 6/10 ≤ score then "high"
  else if 4/10 ≤ score then "moderate"
  else "challenging"

/-- `round(x, 2)` for presentation of the score. Python's float
round-half-even is abstracted to exact rational rounding; no verified claim
depends on tie behaviour of the rounding itself. -/
def round2 (x : ℚ) : ℚ :=
  ((round (x * 100) : ℤ) : ℚ) / 100

/-- First-occurrence deduplication: the key order of the `strength_counts`
dict, and the members of the `styles` set. -/
def dedupKeys (l : List String) : List String :=
  mergeUnique [] l

/-- `max(l)` on a nonempty list (only ever applied to nonempty lists, as in
the source). -/
def maxList : List ℚ → ℚ
  | [] => 0
  | x :: xs => xs.foldl max x

/-- `min(l)` on a nonempty list. -/
def minList : List ℚ → ℚ
  | [] => 0
  | x :: xs => xs.foldl min x

/-- The style-adaptation challenge sentence. -/
def styleChallenge : String :=
  "Different collaboration styles may require adaptation"

/-- The reliability-disparity challenge sentence. -/
def reliabilityChallenge : String :=
  "Significant reliability differences between agents"

/-- The concatenation `all_strengths` of the strengths lists of the
requested agents, in request order. -/
def allStrengthsOf (store : Store) (agent_ids : List String) : List String :=
  (agent_ids.map (fun i => (effProfile store i).strengths)).flatten

/-- The distinct collaboration styles across the requested agents
(the `styles` set; only its size and membership are ever used). -/
def distinctStyles (store : Store) (agent_ids : List String) : List String :=
  dedupKeys (agent_ids.map (fun i => (effProfile store i).collaboration_style))

/-- The unrounded collaboration score: mean of the average reliability and
average interaction quality across the requested agents. -/
def unroundedScore (store : Store) (agent_ids : List String) : ℚ :=
  let avg_reliability :=
    ((agent_ids.map (fun i => (effProfile store i).reliability)).sum) / (agent_ids.length : ℚ)
  let avg_quality :=
    ((agent_ids.map (fun i => (effProfile store i).interaction_quality)).sum) / (agent_ids.length : ℚ)
  (avg_reliability + avg_quality) / 2

/-- Body of `get_collaboration_recommendation` past the missing-agent check,
for a nonempty id list whose agents all exist (the only way this code is
reached): scoring, tiering, strength partitioning, advisory rules,
challenges, and the full profile dump. -/
def recommendationFor (store : Store) (agent_ids : List String) : Recommendation :=
  let avg_reliability :=
    ((agent_ids.map (fun i => (effProfile store i).reliability)).sum) / (agent_ids.length : ℚ)
  let collaboration_score := unroundedScore store agent_ids
  let all_strengths := allStrengthsOf store agent_ids
  let strength_keys := dedupKeys all_strengths
  let common_strengths := strength_keys.filter (fun s => decide (1 < all_strengths.count s))
  let unique_strengths := strength_keys.filter (fun s => decide (all_strengths.count s = 1))
  let recommended_approach :=
    (if common_strengths.isEmpty then []
     else ["Leverage common strengths: " ++ String.intercalate ", " common_strengths]) ++
    (if unique_strengths.isEmpty then []
     else ["Assign tasks based on unique agent strengths"]) ++
    (if avg_reliability < 1/2 then ["Implement verification steps to ensure reliability"] else [])
  let styles := distinctStyles store agent_ids
  let reliability_values := agent_ids.map (fun i => (effProfile store i).reliability)
  let potential_challenges :=
    (if 1 < styles.length ∧ "unknown" ∉ styles then [styleChallenge] else []) ++
    (if 3/10 < maxList reliability_values - minList reliability_values
     then [reliabilityChallenge] else [])
  ⟨collaborationPotential collaboration_score,
   round2 collaboration_score,
   recommended_approach,
   potential_challenges,
   common_strengths,
   unique_strengths,
   agent_ids.map (fun i => (i, effProfile store i))⟩

/-- `TrustNetworkTracker.get_collaboration_recommendation`: reject ids that
are absent from the store with the structured not-found dict; otherwise
compute the recommendation. An empty id list passes the missing check and
then raises `ZeroDivisionError` at `sum(...) / len(agent_ids)`, which the
explicit length test mirrors. The method never writes to the store, which
the type (no store is returned) makes explicit. -/
def get_collaboration_recommendation (store : Store) (agent_ids : List String) :
    Except PyError RecResult :=
  let missing := agent_ids.filter (fun i => (lookupAgent store i).isNone)
  if missing.isEmpty = false then Except.ok (RecResult.notFound missing)
  else if agent_ids.length = 0 then Except.error PyError.zeroDivisionError
  else Except.ok (RecResult.ok (recommendationFor store agent_ids))

/-! ### Call sequences and auxiliary predicates used in the statements -/

/-- The arguments of one `update_trust` call (for reasoning about sequences
of calls for one agent). -/
structure UpdateCall where
  interaction_quality : ℚ
  reliability_score : ℚ
  collaboration_style : Option String
  strengths : Option (List String)
  areas_for_growth : Option (List String)
deriving Repr

/-- Run one `update_trust` call against the store, keeping the new store. -/
def applyCall (store : Store) (agent_id : String) (c : UpdateCall) : Store :=
  (update_trust store agent_id c.interaction_quality c.reliability_score
    c.collaboration_style c.strengths c.areas_for_growth).1

/-- Run a sequence of `update_trust` calls for one agent, left to right. -/
def applyCalls (store : Store) (agent_id : String) (calls : List UpdateCall) : Store :=
  calls.foldl (fun st c => applyCall st agent_id c) store

/-- Both running averages of a profile lie in the unit interval. -/
def scoresInUnit (p : AgentProfile) : Prop :=
  0 ≤ p.reliability ∧ p.reliability ≤ 1 ∧
  0 ≤ p.interaction_quality ∧ p.interaction_quality ≤ 1

/-- How many of the listed agents report strength `s` in their profile
(the spec's "appearing in more than one agent's list" counts these). -/
def agentsWith (store : Store) (agent_ids : List String) (s : String) : Nat :=
  (agent_ids.filter (fun i => decide (s ∈ (effProfile store i).strengths))).length

/-- Fixture store for the style-challenge analysis: agent `"a"` has style
`"direct"`, agent `"b"` still has the default `"unknown"`. -/
def styleStore : Store :=
  [("a", ⟨1, 1, 1, "direct", [], []⟩), ("b", ⟨1, 1, 1, "unknown", [], []⟩)]

/-- Fixture store for the strength-partition analysis: a single agent `"a"`
reporting the single strength `"x"`. -/
def dupStore : Store :=
  [("a", ⟨1, 1, 1, "unknown", ["x"], []⟩)]

/-- Fixture store with two genuinely different known styles. -/
def styleStore2 : Store :=
  [("a", ⟨1, 1, 1, "direct", [], []⟩), ("b", ⟨1, 1, 1, "supportive", [], []⟩)]

/-- Fixture store for the strength partition: `"x"` is shared, `"y"` and
`"z"` are unique to one agent each. -/
def partStore : Store :=
  [("a", ⟨1, 1, 1, "unknown", ["x", "y"], []⟩),
   ("b", ⟨1, 1, 1, "unknown", ["x", "z"], []⟩)]

/-- Fixture call sequence mirroring the spec's example scenario: a first
observation with quality `0.85` and reliability `0.92`, then one with
quality `0.5` and reliability `0.8`. -/
def demoCalls : List UpdateCall :=
  [⟨85/100, 92/100, some "analytical", some ["data analysis"], none⟩,
   ⟨1/2, 4/5, none, none, none⟩]

/-- Fixture call sequence for the strength-growth analysis. -/
def growthCalls : List UpdateCall :=
  [⟨1, 1, some "analytical", some ["a", "b"], some ["g"]⟩,
   ⟨0, 0, none, some ["b", "c", "c"], none⟩]

/-! ### Persistence model

`_save_network` is `json.dump(self.trust_network, f)`; `_load_network` is
`json.load(f)`. Both are the generic tree-shaped JSON (de)serialization.
The document tree is modelled by `Json`; `storeToJson` is the tree `save`
writes, and `storeOfJson` reads a tree back into the typed store, which is
exact on every tree `save` produces (Python round-trips ints, floats and
strings exactly through `json`). -/

/-- JSON value trees as used by the trust-network document: numbers
(ints and floats, both exact here), strings, arrays and objects. -/
inductive Json where
  | num (q : ℚ)
  | str (s : String)
  | arr (items : List Json)
  | obj (fields : List (String × Json))
deriving Repr

/-- Profile record → JSON object, with the field layout of the stored
document. -/
def profileToJson (p : AgentProfile) : Json :=
  Json.obj
    [("interactions", Json.num p.interactions),
     ("reliability", Json.num p.reliability),
     ("interaction_quality", Json.num p.interaction_quality),
     ("collaboration_style", Json.str p.collaboration_style),
     ("strengths", Json.arr (p.strengths.map Json.str)),
     ("areas_for_growth", Json.arr (p.areas_for_growth.map Json.str))]

/-- Whole store → JSON document: object keyed by agent id. -/
def storeToJson (store : Store) : Json :=
  Json.obj (store.map (fun kv => (kv.1, profileToJson kv.2)))

/-- Read the items of a JSON array back as strings. -/
def strItemsOfJson : List Json → Option (List String)
  | [] => some []
  | Json.str s :: rest => (strItemsOfJson rest).map (fun l => s :: l)
  | _ => none

/-- Read a JSON array of strings back into a list. -/
def strListOfJson : Json → Option (List String)
  | Json.arr items => strItemsOfJson items
  | _ => none

/-- Read a JSON number back as a count. -/
def natOfJson : Json → Option Nat
  | Json.num q => if q.den = 1 ∧ 0 ≤ q.num then some q.num.toNat else none
  | _ => none

/-- Read a JSON number back as a score. -/
def ratOfJson : Json → Option ℚ
  | Json.num q => some q
  | _ => none

/-- Read a JSON string. -/
def strOfJson : Json → Option String
  | Json.str s => some s
  | _ => none

/-- Field access in a JSON object. -/
def jsonField : List (String × Json) → String → Option Json
  | [], _ => none
  | (k, v) :: rest, key => if k = key then some v else jsonField rest key

/-- JSON object → profile record. -/
def profileOfJson (j : Json) : Option AgentProfile :=
  match j with
  | Json.obj fields => do
      let interactions ← jsonField fields "interactions" >>= natOfJson
      let reliability ← jsonField fields "reliability" >>= ratOfJson
      let interaction_quality ← jsonField fields "interaction_quality" >>= ratOfJson
      let collaboration_style ← jsonField fields "collaboration_style" >>= strOfJson
      let strengths ← jsonField fields "strengths" >>= strListOfJson
      let areas_for_growth ← jsonField fields "areas_for_growth" >>= strListOfJson
      pure ⟨interactions, reliability, interaction_quality,
            collaboration_style, strengths, areas_for_growth⟩
  | _ => none

/-- Read the bindings of the top-level JSON object back into profiles. -/
def profilesOfJson : List (String × Json) → Option Store
  | [] => some []
  | (k, v) :: rest => do
      let p ← profileOfJson v
      let tail ← profilesOfJson rest
      pure ((k, p) :: tail)

/-- JSON document → whole store (what a fresh tracker instance holds after
loading the document). -/
def storeOfJson (j : Json) : Option Store :=
  match j with
  | Json.obj fields => profilesOfJson fields
  | _ => none

/-! ### Store lemmas -/

theorem lookup_setAgent_self (store : Store) (agent_id : String) (p : AgentProfile) :
    lookupAgent (setAgent store agent_id p) agent_id = some p := by
  induction store with
  | nil => simp [setAgent, lookupAgent]
  | cons kv rest ih =>
      obtain ⟨k, q⟩ := kv
      by_cases h : k = agent_id
      · simp [setAgent, lookupAgent, h]
      · simp [setAgent, lookupAgent, h, ih]

theorem lookup_setAgent_ne (store : Store) (agent_id k : String) (p : AgentProfile)
    (h : k ≠ agent_id) :
    lookupAgent (setAgent store agent_id p) k = lookupAgent store k := by
  induction store with
  | nil => simp [setAgent, lookupAgent, Ne.symm h]
  | cons kv rest ih =>
      obtain ⟨k', q⟩ := kv
      by_cases h' : k' = agent_id
      · subst h'
        simp [setAgent, lookupAgent, Ne.symm h]
      · simp [setAgent, lookupAgent, h', ih]

theorem effProfile_update_self (store : Store) (agent_id : String)
    (q r : ℚ) (cs : Option String) (s a : Option (List String)) :
    effProfile (update_trust store agent_id q r cs s a).1 agent_id
      = (update_trust store agent_id q r cs s a).2 := by
  simp [effProfile, update_trust, lookup_setAgent_self]

theorem lookup_update_self (store : Store) (agent_id : String)
    (q r : ℚ) (cs : Option String) (s a : Option (List String)) :
    lookupAgent (update_trust store agent_id q r cs s a).1 agent_id
      = some (update_trust store agent_id q r cs s a).2 := by
  simp [update_trust, lookup_setAgent_self]

theorem effProfile_update_ne (store : Store) (agent_id k : String)
    (q r : ℚ) (cs : Option String) (s a : Option (List String)) (h : k ≠ agent_id) :
    effProfile (update_trust store agent_id q r cs s a).1 k = effProfile store k := by
  simp [effProfile, update_trust, lookup_setAgent_ne _ _ _ _ h]

/-! ### Merge-loop lemmas -/

theorem mem_insertNew (acc : List String) (s x : String) :
    x ∈ insertNew acc s ↔ x ∈ acc ∨ x = s := by
  unfold insertNew
  by_cases h : s ∈ acc
  · simp only [if_pos h]
    constructor
    · exact Or.inl
    · rintro (hx | rfl)
      · exact hx
      · exact h
  · simp [if_neg h]

theorem nodup_insertNew (acc : List String) (s : String) (h : acc.Nodup) :
    (insertNew acc s).Nodup := by
  unfold insertNew
  by_cases hs : s ∈ acc
  · simpa [hs]
  · simp [hs, List.nodup_append, h]

theorem mem_mergeUnique (l : List String) :
    ∀ acc x, x ∈ mergeUnique acc l ↔ x ∈ acc ∨ x ∈ l := by
  induction l with
  | nil => simp [mergeUnique]
  | cons s rest ih =>
      intro acc x
      rw [mergeUnique, ih, mem_insertNew]
      simp [or_assoc]

theorem nodup_mergeUnique (l : List String) :
    ∀ acc, acc.Nodup → (mergeUnique acc l).Nodup := by
  induction l with
  | nil =>
      intro acc h
      simpa [mergeUnique]
  | cons s rest ih =>
      intro acc h
      rw [mergeUnique]
      exact ih _ (nodup_insertNew acc s h)

theorem mem_dedupKeys (l : List String) (x : String) :
    x ∈ dedupKeys l ↔ x ∈ l := by
  simp [dedupKeys, mem_mergeUnique]

theorem nodup_dedupKeys (l : List String) : (dedupKeys l).Nodup :=
  nodup_mergeUnique l [] List.nodup_nil

theorem mem_applyListArg_of_mem (cur : List String) (arg : Option (List String))
    (x : String) (h : x ∈ cur) : x ∈ applyListArg cur arg := by
  cases arg with
  | none => exact h
  | some l =>
      rw [applyListArg]
      split
      · exact h
      · exact (mem_mergeUnique l cur x).mpr (Or.inl h)

theorem mem_applyListArg_of_arg (cur l : List String) (x : String) (h : x ∈ l) :
    x ∈ applyListArg cur (some l) := by
  rw [applyListArg]
  split
  · rename_i he
    rw [List.isEmpty_iff] at he
    subst he
    cases h
  · exact (mem_mergeUnique l cur x).mpr (Or.inr h)

theorem nodup_applyListArg (cur : List String) (arg : Option (List String))
    (h : cur.Nodup) : (applyListArg cur arg).Nodup := by
  cases arg with
  | none => exact h
  | some l =>
      rw [applyListArg]
      split
      · exact h
      · exact nodup_mergeUnique l cur h

/-! ### Call-sequence lemmas -/

theorem applyCalls_nil (store : Store) (agent_id : String) :
    applyCalls store agent_id [] = store := rfl

theorem applyCalls_cons (store : Store) (agent_id : String)
    (c : UpdateCall) (rest : List UpdateCall) :
    applyCalls store agent_id (c :: rest)
      = applyCalls (applyCall store agent_id c) agent_id rest := rfl

theorem applyCalls_append (store : Store) (agent_id : String)
    (l1 l2 : List UpdateCall) :
    applyCalls store agent_id (l1 ++ l2)
      = applyCalls (applyCalls store agent_id l1) agent_id l2 := by
  simp [applyCalls, List.foldl_append]

theorem effProfile_applyCall (store : Store) (agent_id : String) (c : UpdateCall) :
    effProfile (applyCall store agent_id c) agent_id =
      ⟨(effProfile store agent_id).interactions + 1,
       ((effProfile store agent_id).reliability
           * ((((effProfile store agent_id).interactions + 1 : Nat) : ℚ) - 1)
         + c.reliability_score)
         / (((effProfile store agent_id).interactions + 1 : Nat) : ℚ),
       ((effProfile store agent_id).interaction_quality
           * ((((effProfile store agent_id).interactions + 1 : Nat) : ℚ) - 1)
         + c.interaction_quality)
         / (((effProfile store agent_id).interactions + 1 : Nat) : ℚ),
       applyStyleArg (effProfile store agent_id).collaboration_style c.collaboration_style,
       applyListArg (effProfile store agent_id).strengths c.strengths,
       applyListArg (effProfile store agent_id).areas_for_growth c.areas_for_growth⟩ := by
  rw [applyCall, effProfile_update_self]
  rfl

theorem step_mul (old v : ℚ) (n : Nat) :
    (old * (((n + 1 : Nat) : ℚ) - 1) + v) / ((n + 1 : Nat) : ℚ) * ((n + 1 : Nat) : ℚ)
      = old * (n : ℚ) + v := by
  have hne : ((n + 1 : Nat) : ℚ) ≠ 0 := by
    exact_mod_cast Nat.succ_ne_zero n
  rw [div_mul_cancel₀ _ hne]
  push_cast
  ring

theorem applyCalls_mean (agent_id : String) (calls : List UpdateCall) :
    ∀ store : Store,
    (effProfile (applyCalls store agent_id calls) agent_id).interactions
      = (effProfile store agent_id).interactions + calls.length ∧
    (effProfile (applyCalls store agent_id calls) agent_id).reliability
        * ((effProfile (applyCalls store agent_id calls) agent_id).interactions : ℚ)
      = (effProfile store agent_id).reliability
          * ((effProfile store agent_id).interactions : ℚ)
        + (calls.map (fun c => c.reliability_score)).sum ∧
    (effProfile (applyCalls store agent_id calls) agent_id).interaction_quality
        * ((effProfile (applyCalls store agent_id calls) agent_id).interactions : ℚ)
      = (effProfile store agent_id).interaction_quality
          * ((effProfile store agent_id).interactions : ℚ)
        + (calls.map (fun c => c.interaction_quality)).sum := by
  induction calls with
  | nil =>
      intro store
      simp [applyCalls]
  | cons c rest ih =>
      intro store
      obtain ⟨h1, h2, h3⟩ := ih (applyCall store agent_id c)
      rw [applyCalls_cons]
      refine ⟨?_, ?_, ?_⟩
      · rw [h1, effProfile_applyCall]
        simp [List.length_cons]
        omega
      · rw [h2, effProfile_applyCall]
        dsimp only
        rw [step_mul]
        simp [List.sum_cons]
        ring
      · rw [h3, effProfile_applyCall]
        dsimp only
        rw [step_mul]
        simp [List.sum_cons]
        ring

theorem lookup_applyCalls_isSome (agent_id : String) (calls : List UpdateCall) :
    ∀ store : Store, (lookupAgent store agent_id).isSome →
      (lookupAgent (applyCalls store agent_id calls) agent_id).isSome := by
  induction calls with
  | nil => intro store h; exact h
  | cons c rest ih =>
      intro store h
      rw [applyCalls_cons]
      apply ih
      rw [applyCall, lookup_update_self]
      rfl

theorem lookup_applyCalls_ne_nil (agent_id : String) (calls : List UpdateCall)
    (store : Store) (h : calls ≠ []) :
    lookupAgent (applyCalls store agent_id calls) agent_id
      = some (effProfile (applyCalls store agent_id calls) agent_id) := by
  cases calls with
  | nil => cases h rfl
  | cons c rest =>
      have hsome : (lookupAgent (applyCalls store agent_id (c :: rest)) agent_id).isSome := by
        rw [applyCalls_cons]
        apply lookup_applyCalls_isSome
        rw [applyCall, lookup_update_self]
        rfl
      obtain ⟨p, hp⟩ := Option.isSome_iff_exists.mp hsome
      rw [hp]
      simp [effProfile, hp]

/-- Claim C1: starting from no profile, a sequence of `k` `update_trust`
calls leaves `reliability` equal to the arithmetic mean of the supplied
reliability scores and `interaction_quality` equal to the mean of the
supplied quality scores, and each single call applies the rule
`new = (old * (n - 1) + value) / n` with `n` the incremented count. -/
theorem c1_incremental_mean (store : Store) (agent_id : String)
    (calls : List UpdateCall)
    (habs : lookupAgent store agent_id = none) (hne : calls ≠ []) :
    (∀ (st : Store) (c : UpdateCall),
        (update_trust st agent_id c.interaction_quality c.reliability_score
            c.collaboration_style c.strengths c.areas_for_growth).2.reliability
          = ((effProfile st agent_id).reliability
                * ((((effProfile st agent_id).interactions : ℚ) + 1) - 1)
              + c.reliability_score) / (((effProfile st agent_id).interactions : ℚ) + 1) ∧
        (update_trust st agent_id c.interaction_quality c.reliability_score
            c.collaboration_style c.strengths c.areas_for_growth).2.interaction_quality
          = ((effProfile st agent_id).interaction_quality
                * ((((effProfile st agent_id).interactions : ℚ) + 1) - 1)
              + c.interaction_quality) / (((effProfile st agent_id).interactions : ℚ) + 1)) ∧
    ∃ p, lookupAgent (applyCalls store agent_id calls) agent_id = some p ∧
      p.interactions = calls.length ∧
      p.reliability = (calls.map (fun c => c.reliability_score)).sum / (calls.length : ℚ) ∧
      p.interaction_quality
        = (calls.map (fun c => c.interaction_quality)).sum / (calls.length : ℚ) := by
  constructor
  · intro st c
    constructor
    · rw [update_trust]
      dsimp only
      push_cast
      ring
    · rw [update_trust]
      dsimp only
      push_cast
      ring
  · obtain ⟨h1, h2, h3⟩ := applyCalls_mean agent_id calls store
    have hfresh : effProfile store agent_id = freshProfile := by
      simp [effProfile, habs]
    rw [hfresh] at h1 h2 h3
    simp only [freshProfile] at h1 h2 h3
    have hlen : (calls.length : ℚ) ≠ 0 := by
      simpa [List.length_eq_zero] using hne
    have h1' : (effProfile (applyCalls store agent_id calls) agent_id).interactions
        = calls.length := by
      simpa using h1
    have hi : ((effProfile (applyCalls store agent_id calls) agent_id).interactions : ℚ)
        = (calls.length : ℚ) := by
      exact_mod_cast h1'
    refine ⟨effProfile (applyCalls store agent_id calls) agent_id,
      lookup_applyCalls_ne_nil agent_id calls store hne, h1', ?_, ?_⟩
    · rw [hi] at h2
      field_simp at h2 ⊢
      linarith [h2]
    · rw [hi] at h3
      field_simp at h3 ⊢
      linarith [h3]

/-- Witness for C1 at the spec's example scenario: two calls with
(quality, reliability) = (0.85, 0.92) and (0.5, 0.8) give means
0.86 and 0.675. -/
theorem c1_incremental_mean_witness :
    ∃ p, lookupAgent (applyCalls [] "agent1" demoCalls) "agent1" = some p ∧
      p.interactions = 2 ∧ p.reliability = 43/50 ∧ p.interaction_quality = 27/40 := by
  obtain ⟨-, p, hp, hi, hr, hq⟩ :=
    c1_incremental_mean [] "agent1" demoCalls rfl (by simp [demoCalls])
  refine ⟨p, hp, ?_, ?_, ?_⟩
  · simpa [demoCalls] using hi
  · rw [hr]
    norm_num [demoCalls]
  · rw [hq]
    norm_num [demoCalls]

/-! ### Recommendation lemmas -/

theorem filter_missing_nil (store : Store) (ids : List String)
    (hall : ∀ i ∈ ids, (lookupAgent store i).isSome) :
    ids.filter (fun i => (lookupAgent store i).isNone) = [] := by
  rw [List.filter_eq_nil_iff]
  intro i hi
  have hs := hall i hi
  simp only [Option.isNone_iff_eq_none]
  exact Option.isSome_iff_ne_none.mp hs

theorem getRec_ok (store : Store) (ids : List String)
    (hne : ids ≠ []) (hall : ∀ i ∈ ids, (lookupAgent store i).isSome) :
    get_collaboration_recommendation store ids
      = Except.ok (RecResult.ok (recommendationFor store ids)) := by
  have hm := filter_missing_nil store ids hall
  have hlen : ids.length ≠ 0 := by
    simpa [List.length_eq_zero] using hne
  simp [get_collaboration_recommendation, hm, hlen]

/-- Claim C2: the tier label uses inclusive lower bounds on the exact
(unrounded) collaboration score: `≥ 0.8` very high, `[0.6, 0.8)` high,
`[0.4, 0.6)` moderate, `< 0.4` challenging, with the stated boundary
examples; the recommendation's tier is computed from the unrounded score
while the reported score is rounded afterwards. -/
theorem c2_tier_boundaries (score : ℚ) :
    (8/10 ≤ score → collaborationPotential score = "very high") ∧
    (6/10 ≤ score → score < 8/10 → collaborationPotential score = "high") ∧
    (4/10 ≤ score → score < 6/10 → collaborationPotential score = "moderate") ∧
    (score < 4/10 → collaborationPotential score = "challenging") ∧
    collaborationPotential (8/10) = "very high" ∧
    collaborationPotential (79999/100000) = "high" ∧
    collaborationPotential (6/10) = "high" ∧
    collaborationPotential (4/10) = "moderate" ∧
    collaborationPotential (39999/100000) = "challenging" ∧
    round2 (79999/100000) = 8/10 ∧
    (∀ (store : Store) (ids : List String), ids ≠ [] →
      (∀ i ∈ ids, (lookupAgent store i).isSome) →
      ∃ r, get_collaboration_recommendation store ids
            = Except.ok (RecResult.ok r) ∧
        r.collaboration_potential = collaborationPotential (unroundedScore store ids) ∧
        r.collaboration_score = round2 (unroundedScore store ids)) := by
  refine ⟨?_, ?_, ?_, ?_, ?_, ?_, ?_, ?_, ?_, ?_, ?_⟩
  · intro h
    rw [collaborationPotential, if_pos h]
  · intro h1 h2
    rw [collaborationPotential, if_neg (not_le.mpr h2), if_pos h1]
  · intro h1 h2
    rw [collaborationPotential, if_neg (not_le.mpr (by linarith)), if_neg (not_le.mpr h2),
      if_pos h1]
  · intro h
    rw [collaborationPotential, if_neg (not_le.mpr (by linarith)),
      if_neg (not_le.mpr (by linarith)), if_neg (not_le.mpr h)]
  · norm_num [collaborationPotential]
  · norm_num [collaborationPotential]
  · norm_num [collaborationPotential]
  · norm_num [collaborationPotential]
  · norm_num [collaborationPotential]
  · norm_num [round2, round_eq]
  · intro store ids hne hall
    exact ⟨recommendationFor store ids, getRec_ok store ids hne hall, rfl, rfl⟩

/-- Witness for C2: a score of 0.81 reaches the very-high tier through the
general bound. -/
theorem c2_tier_boundaries_witness :
    collaborationPotential (81/100) = "very high" :=
  (c2_tier_boundaries (81/100)).1 (by norm_num)

/-- Claim C3: when at least one requested id is absent, the result is the
structured not-found value whose missing list holds exactly the absent ids
(in request order), not an exception; no score is computed and, the scorer
being read-only by construction, no profile changes. -/
theorem c3_missing_agents (store : Store) (ids : List String)
    (h : ∃ i ∈ ids, lookupAgent store i = none) :
    get_collaboration_recommendation store ids
      = Except.ok (RecResult.notFound
          (ids.filter (fun i => (lookupAgent store i).isNone))) ∧
    ∀ x, x ∈ ids.filter (fun i => (lookupAgent store i).isNone)
      ↔ (x ∈ ids ∧ lookupAgent store x = none) := by
  have hne : (ids.filter (fun i => (lookupAgent store i).isNone)) ≠ [] := by
    obtain ⟨i, hi, hnone⟩ := h
    intro hnil
    have hmem : i ∈ ids.filter (fun i => (lookupAgent store i).isNone) := by
      rw [List.mem_filter]
      exact ⟨hi, by simp [hnone]⟩
    rw [hnil] at hmem
    cases hmem
  constructor
  · have hb : (ids.filter (fun i => (lookupAgent store i).isNone)).isEmpty = false := by
      simpa [List.isEmpty_iff] using hne
    simp [get_collaboration_recommendation, hb]
  · intro x
    simp [List.mem_filter, Option.isNone_iff_eq_none]

/-- Witness for C3: requesting `["a"]` against the empty store yields the
not-found result listing `"a"`. -/
theorem c3_missing_agents_witness :
    get_collaboration_recommendation [] ["a"]
      = Except.ok (RecResult.notFound ["a"]) := by
  have h := (c3_missing_agents [] ["a"] ⟨"a", by simp, rfl⟩).1
  simpa [lookupAgent] using h

/-- Claim C4 counterexample: with an empty id list the missing-agent check
passes (no id is missing) and the code divides by `len(agent_ids) = 0`, so
`get_collaboration_recommendation` raises `ZeroDivisionError` instead of
completing — the claim's statement about the empty list is false. -/
theorem c4_no_raise_cex :
    get_collaboration_recommendation [] [] = Except.error PyError.zeroDivisionError := rfl

/-- Claim C4 as amended: no tracker operation raises to its caller except
`get_collaboration_recommendation` on an empty id list (which raises
`ZeroDivisionError`); for every nonempty id list the call completes
normally, surfacing at most the structured not-found result. `update_trust`
and `get_agent_profile` are total functions of the model (no exception
path exists in them at all). -/
theorem c4_no_raise_amended (store : Store) (ids : List String)
    (hne : ids ≠ []) (e : PyError) :
    get_collaboration_recommendation store ids ≠ Except.error e := by
  rw [get_collaboration_recommendation]
  by_cases hm : (ids.filter (fun i => (lookupAgent store i).isNone)).isEmpty = false
  · simp [hm]
  · have hlen : ids.length ≠ 0 := by
      simpa [List.length_eq_zero] using hne
    simp [hm, hlen]

/-- Witness for C4 (amended): the singleton request `["a"]` never surfaces
the division error. -/
theorem c4_no_raise_amended_witness :
    get_collaboration_recommendation [] ["a"] ≠ Except.error PyError.zeroDivisionError :=
  c4_no_raise_amended [] ["a"] (by simp) PyError.zeroDivisionError

/-! ### Unit-interval invariant -/

theorem update_trust_fst (store : Store) (agent_id : String)
    (q r : ℚ) (cs : Option String) (s a : Option (List String)) :
    (update_trust store agent_id q r cs s a).1
      = setAgent store agent_id (update_trust store agent_id q r cs s a).2 := rfl

theorem unit_step (old v : ℚ) (n : Nat)
    (hold : 0 ≤ old) (hold1 : old ≤ 1) (hv : 0 ≤ v) (hv1 : v ≤ 1) :
    0 ≤ (old * (((n + 1 : Nat) : ℚ) - 1) + v) / ((n + 1 : Nat) : ℚ) ∧
      (old * (((n + 1 : Nat) : ℚ) - 1) + v) / ((n + 1 : Nat) : ℚ) ≤ 1 := by
  have hc : (((n + 1 : Nat) : ℚ) - 1) = (n : ℚ) := by
    push_cast
    ring
  have hpos : (0 : ℚ) < ((n + 1 : Nat) : ℚ) := by
    exact_mod_cast Nat.succ_pos n
  have hn : (0 : ℚ) ≤ (n : ℚ) := Nat.cast_nonneg n
  rw [hc]
  constructor
  · apply div_nonneg
    · nlinarith
    · linarith
  · rw [div_le_one hpos]
    push_cast
    nlinarith

/-- Claim C5: if every stored profile's running averages lie in `[0,1]` and
the supplied quality and reliability inputs lie in `[0,1]`, then after an
`update_trust` call every stored profile's averages still lie in `[0,1]`
(the read-only operations cannot disturb this, so it is an invariant of the
whole interface under in-range inputs). -/
theorem c5_unit_interval (store : Store) (agent_id : String)
    (q r : ℚ) (cs : Option String) (s a : Option (List String))
    (hstore : ∀ k p, lookupAgent store k = some p → scoresInUnit p)
    (hq : 0 ≤ q ∧ q ≤ 1) (hr : 0 ≤ r ∧ r ≤ 1) :
    ∀ k p', lookupAgent (update_trust store agent_id q r cs s a).1 k = some p' →
      scoresInUnit p' := by
  intro k p' hlook
  by_cases hk : k = agent_id
  · subst hk
    rw [lookup_update_self] at hlook
    injection hlook with hp
    subst hp
    have h0 : scoresInUnit (effProfile store k) := by
      unfold effProfile
      cases hl : lookupAgent store k with
      | none => simp [freshProfile, scoresInUnit]
      | some p => simpa using hstore k p hl
    obtain ⟨h1, h2, h3, h4⟩ := h0
    have sr := unit_step (effProfile store k).reliability r
      (effProfile store k).interactions h1 h2 hr.1 hr.2
    have sq := unit_step (effProfile store k).interaction_quality q
      (effProfile store k).interactions h3 h4 hq.1 hq.2
    rw [update_trust]
    exact ⟨sr.1, sr.2, sq.1, sq.2⟩
  · rw [update_trust_fst, lookup_setAgent_ne _ _ _ _ hk] at hlook
    exact hstore k p' hlook

/-- Witness for C5: one update on the empty store with in-range inputs
keeps both averages in the unit interval. -/
theorem c5_unit_interval_witness :
    scoresInUnit (update_trust [] "a" (1/2) (1/3) none none none).2 :=
  c5_unit_interval [] "a" (1/2) (1/3) none none none
    (by
      intro k p h
      simp [lookupAgent] at h)
    (by norm_num) (by norm_num) "a" _
    (lookup_update_self [] "a" (1/2) (1/3) none none none)

/-! ### Strength-growth lemmas -/

theorem applyCalls_strengths_nodup (agent_id : String) (calls : List UpdateCall) :
    ∀ store : Store, (effProfile store agent_id).strengths.Nodup →
      (effProfile (applyCalls store agent_id calls) agent_id).strengths.Nodup := by
  induction calls with
  | nil => intro store h; exact h
  | cons c rest ih =>
      intro store h
      rw [applyCalls_cons]
      apply ih
      rw [effProfile_applyCall]
      exact nodup_applyListArg _ _ h

theorem applyCalls_areas_nodup (agent_id : String) (calls : List UpdateCall) :
    ∀ store : Store, (effProfile store agent_id).areas_for_growth.Nodup →
      (effProfile (applyCalls store agent_id calls) agent_id).areas_for_growth.Nodup := by
  induction calls with
  | nil => intro store h; exact h
  | cons c rest ih =>
      intro store h
      rw [applyCalls_cons]
      apply ih
      rw [effProfile_applyCall]
      exact nodup_applyListArg _ _ h

theorem applyCalls_strengths_mono (agent_id : String) (calls : List UpdateCall) :
    ∀ (store : Store) (x : String), x ∈ (effProfile store agent_id).strengths →
      x ∈ (effProfile (applyCalls store agent_id calls) agent_id).strengths := by
  induction calls with
  | nil => intro store x h; exact h
  | cons c rest ih =>
      intro store x h
      rw [applyCalls_cons]
      apply ih
      rw [effProfile_applyCall]
      exact mem_applyListArg_of_mem _ _ _ h

theorem applyCalls_areas_mono (agent_id : String) (calls : List UpdateCall) :
    ∀ (store : Store) (x : String), x ∈ (effProfile store agent_id).areas_for_growth →
      x ∈ (effProfile (applyCalls store agent_id calls) agent_id).areas_for_growth := by
  induction calls with
  | nil => intro store x h; exact h
  | cons c rest ih =>
      intro store x h
      rw [applyCalls_cons]
      apply ih
      rw [effProfile_applyCall]
      exact mem_applyListArg_of_mem _ _ _ h

theorem applyCalls_strengths_of_call (agent_id : String) (calls : List UpdateCall) :
    ∀ store : Store, ∀ c ∈ calls, ∀ x ∈ c.strengths.getD [],
      x ∈ (effProfile (applyCalls store agent_id calls) agent_id).strengths := by
  induction calls with
  | nil =>
      intro store c hc
      cases hc
  | cons c' rest ih =>
      intro store c hc x hx
      rw [applyCalls_cons]
      rcases List.mem_cons.mp hc with rfl | hc'
      · apply applyCalls_strengths_mono
        rw [effProfile_applyCall]
        cases hs : c.strengths with
        | none => rw [hs] at hx; cases hx
        | some l =>
            rw [hs] at hx
            exact mem_applyListArg_of_arg _ _ _ hx
      · exact ih _ c hc' x hx

theorem applyCalls_areas_of_call (agent_id : String) (calls : List UpdateCall) :
    ∀ store : Store, ∀ c ∈ calls, ∀ x ∈ c.areas_for_growth.getD [],
      x ∈ (effProfile (applyCalls store agent_id calls) agent_id).areas_for_growth := by
  induction calls with
  | nil =>
      intro store c hc
      cases hc
  | cons c' rest ih =>
      intro store c hc x hx
      rw [applyCalls_cons]
      rcases List.mem_cons.mp hc with rfl | hc'
      · apply applyCalls_areas_mono
        rw [effProfile_applyCall]
        cases hs : c.areas_for_growth with
        | none => rw [hs] at hx; cases hx
        | some l =>
            rw [hs] at hx
            exact mem_applyListArg_of_arg _ _ _ hx
      · exact ih _ c hc' x hx

/-- Claim C6: over any sequence of `update_trust` calls (given the agent's
lists start duplicate-free, as a lazily created profile does), the final
`strengths` and `areas_for_growth` lists contain every label supplied by
any call of the sequence, contain no duplicates, and never lose a label
present after any earlier point of the sequence. -/
theorem c6_strength_growth (store : Store) (agent_id : String) (calls : List UpdateCall)
    (hs : (effProfile store agent_id).strengths.Nodup)
    (ha : (effProfile store agent_id).areas_for_growth.Nodup) :
    (effProfile (applyCalls store agent_id calls) agent_id).strengths.Nodup ∧
    (effProfile (applyCalls store agent_id calls) agent_id).areas_for_growth.Nodup ∧
    (∀ c ∈ calls, ∀ x ∈ c.strengths.getD [],
        x ∈ (effProfile (applyCalls store agent_id calls) agent_id).strengths) ∧
    (∀ c ∈ calls, ∀ x ∈ c.areas_for_growth.getD [],
        x ∈ (effProfile (applyCalls store agent_id calls) agent_id).areas_for_growth) ∧
    (∀ pre suf, calls = pre ++ suf →
      (∀ x, x ∈ (effProfile (applyCalls store agent_id pre) agent_id).strengths →
         x ∈ (effProfile (applyCalls store agent_id calls) agent_id).strengths) ∧
      (∀ x, x ∈ (effProfile (applyCalls store agent_id pre) agent_id).areas_for_growth →
         x ∈ (effProfile (applyCalls store agent_id calls) agent_id).areas_for_growth)) := by
  refine ⟨applyCalls_strengths_nodup agent_id calls store hs,
    applyCalls_areas_nodup agent_id calls store ha,
    applyCalls_strengths_of_call agent_id calls store,
    applyCalls_areas_of_call agent_id calls store, ?_⟩
  intro pre suf hsplit
  subst hsplit
  rw [applyCalls_append]
  exact ⟨fun x hx => applyCalls_strengths_mono agent_id suf _ x hx,
    fun x hx => applyCalls_areas_mono agent_id suf _ x hx⟩

/-- Witness for C6: after the fixture sequence the strengths list is
duplicate-free and contains the label `"c"` supplied (twice) by the second
call. -/
theorem c6_strength_growth_witness :
    (effProfile (applyCalls [] "a" growthCalls) "a").strengths.Nodup ∧
    "c" ∈ (effProfile (applyCalls [] "a" growthCalls) "a").strengths := by
  have h := c6_strength_growth [] "a" growthCalls
    (by simp [effProfile, lookupAgent, freshProfile])
    (by simp [effProfile, lookupAgent, freshProfile])
  exact ⟨h.1, h.2.2.1 ⟨0, 0, none, some ["b", "c", "c"], none⟩
    (by simp [growthCalls]) "c" (by simp)⟩

/-! ### Style challenge -/

/-- Claim C7 counterexample: with styles `\x7b"direct", "unknown"\x7d` the
distinct-style set has size 2 and does not consist solely of `"unknown"`,
so the claim requires the style-adaptation challenge — but the code tests
`"unknown" not in styles` and appends nothing. -/
theorem c7_style_challenge_cex :
    get_collaboration_recommendation styleStore ["a", "b"]
      = Except.ok (RecResult.ok (recommendationFor styleStore ["a", "b"])) ∧
    styleChallenge ∉ (recommendationFor styleStore ["a", "b"]).potential_challenges ∧
    1 < (distinctStyles styleStore ["a", "b"]).length ∧
    distinctStyles styleStore ["a", "b"] ≠ ["unknown"] := by
  refine ⟨getRec_ok _ _ (by simp) (by decide), ?_, by decide, by decide⟩
  have h1 : ¬(1 < (distinctStyles styleStore ["a", "b"]).length ∧
      "unknown" ∉ distinctStyles styleStore ["a", "b"]) := by decide
  have h2 : ¬((3 : ℚ)/10 < maxList (["a", "b"].map fun i => (effProfile styleStore i).reliability)
      - minList (["a", "b"].map fun i => (effProfile styleStore i).reliability)) := by
    have e1 : effProfile styleStore "a" = ⟨1, 1, 1, "direct", [], []⟩ := rfl
    have e2 : effProfile styleStore "b" = ⟨1, 1, 1, "unknown", [], []⟩ := rfl
    norm_num [maxList, minList, e1, e2]
  simp only [recommendationFor, if_neg h1, if_neg h2]
  simp

/-- Claim C7 as amended: the style-adaptation challenge is appended exactly
when the set of distinct `collaboration_style` values across the requested
agents has size greater than 1 and `"unknown"` is not among them. -/
theorem c7_style_challenge_amended (store : Store) (ids : List String)
    (hne : ids ≠ []) (hall : ∀ i ∈ ids, (lookupAgent store i).isSome) :
    ∃ r, get_collaboration_recommendation store ids = Except.ok (RecResult.ok r) ∧
      (styleChallenge ∈ r.potential_challenges ↔
        (1 < (distinctStyles store ids).length ∧ "unknown" ∉ distinctStyles store ids)) := by
  refine ⟨recommendationFor store ids, getRec_ok store ids hne hall, ?_⟩
  have hne12 : styleChallenge ≠ reliabilityChallenge := by decide
  simp only [recommendationFor]
  constructor
  · intro hmem
    by_contra hcond
    rw [if_neg hcond] at hmem
    rw [List.nil_append] at hmem
    split at hmem
    · rw [List.mem_singleton] at hmem
      exact hne12 hmem
    · cases hmem
  · intro hcond
    rw [if_pos hcond]
    simp

/-- Witness for C7 (amended): with styles `"direct"` and `"supportive"`
the challenge is appended. -/
theorem c7_style_challenge_amended_witness :
    ∃ r, get_collaboration_recommendation styleStore2 ["a", "b"]
        = Except.ok (RecResult.ok r) ∧
      (styleChallenge ∈ r.potential_challenges ↔
        (1 < (distinctStyles styleStore2 ["a", "b"]).length ∧
          "unknown" ∉ distinctStyles styleStore2 ["a", "b"])) :=
  c7_style_challenge_amended styleStore2 ["a", "b"] (by simp) (by decide)

/-! ### Strength partition -/

theorem count_allStrengths (store : Store) (s : String) :
    ∀ ids : List String, (∀ i ∈ ids, ((effProfile store i).strengths).Nodup) →
      (allStrengthsOf store ids).count s = agentsWith store ids s := by
  intro ids
  induction ids with
  | nil => intro _; rfl
  | cons i rest ih =>
      intro hprof
      have hi := hprof i (List.mem_cons_self i rest)
      have hrest := ih (fun j hj => hprof j (List.mem_cons_of_mem i hj))
      simp only [allStrengthsOf, List.map_cons, List.flatten_cons, List.count_append,
        agentsWith, List.filter_cons] at hrest ⊢
      by_cases hmem : s ∈ (effProfile store i).strengths
      · rw [List.count_eq_one_of_mem hi hmem]
        simp [hmem, hrest]
        omega
      · rw [List.count_eq_zero_of_not_mem hmem]
        simp [hmem, hrest]

/-- Claim C8 counterexample: requesting the same agent twice
(`["a", "a"]` against a store where only agent `"a"` reports strength
`"x"`) makes the occurrence count 2, so the code reports `"x"` as a common
strength although it appears in exactly one agent's strengths list. -/
theorem c8_partition_cex :
    get_collaboration_recommendation dupStore ["a", "a"]
      = Except.ok (RecResult.ok (recommendationFor dupStore ["a", "a"])) ∧
    (recommendationFor dupStore ["a", "a"]).common_strengths = ["x"] ∧
    (recommendationFor dupStore ["a", "a"]).unique_strengths = [] ∧
    agentsWith dupStore (dedupKeys ["a", "a"]) "x" = 1 := by
  exact ⟨getRec_ok _ _ (by simp) (by decide), by decide, by decide, by decide⟩

/-- Claim C8 as amended: for a duplicate-free list of requested ids whose
stored strengths lists are themselves duplicate-free, `common_strengths`
holds exactly the strengths reported by more than one of the requested
agents, `unique_strengths` exactly those reported by exactly one, and every
reported strength falls in exactly one of the two. -/
theorem c8_partition_amended (store : Store) (ids : List String)
    (hne : ids ≠ []) (hall : ∀ i ∈ ids, (lookupAgent store i).isSome)
    (_hids : ids.Nodup)
    (hprof : ∀ i ∈ ids, ((effProfile store i).strengths).Nodup) :
    ∃ r, get_collaboration_recommendation store ids = Except.ok (RecResult.ok r) ∧
      (∀ s, s ∈ r.common_strengths ↔ 1 < agentsWith store ids s) ∧
      (∀ s, s ∈ r.unique_strengths ↔ agentsWith store ids s = 1) ∧
      (∀ s, s ∈ allStrengthsOf store ids →
        (s ∈ r.common_strengths ∧ s ∉ r.unique_strengths) ∨
        (s ∈ r.unique_strengths ∧ s ∉ r.common_strengths)) := by
  have hcnt : ∀ s, (allStrengthsOf store ids).count s = agentsWith store ids s :=
    fun s => count_allStrengths store s ids hprof
  have hcommon : ∀ s,
      s ∈ (recommendationFor store ids).common_strengths ↔ 1 < agentsWith store ids s := by
    intro s
    simp only [recommendationFor, List.mem_filter, mem_dedupKeys, decide_eq_true_eq, hcnt]
    constructor
    · exact fun h => h.2
    · intro h
      refine ⟨?_, h⟩
      have hpos : 0 < (allStrengthsOf store ids).count s := by
        rw [hcnt]
        omega
      exact List.count_pos_iff.mp hpos
  have huniq : ∀ s,
      s ∈ (recommendationFor store ids).unique_strengths ↔ agentsWith store ids s = 1 := by
    intro s
    simp only [recommendationFor, List.mem_filter, mem_dedupKeys, decide_eq_true_eq, hcnt]
    constructor
    · exact fun h => h.2
    · intro h
      refine ⟨?_, h⟩
      have hpos : 0 < (allStrengthsOf store ids).count s := by
        rw [hcnt]
        omega
      exact List.count_pos_iff.mp hpos
  refine ⟨recommendationFor store ids, getRec_ok store ids hne hall, hcommon, huniq, ?_⟩
  intro s hs
  have hpos : 0 < agentsWith store ids s := by
    rw [← hcnt]
    exact List.count_pos_iff.mpr hs
  by_cases hone : agentsWith store ids s = 1
  · right
    refine ⟨(huniq s).mpr hone, ?_⟩
    intro hc
    have := (hcommon s).mp hc
    omega
  · left
    have hgt : 1 < agentsWith store ids s := by omega
    refine ⟨(hcommon s).mpr hgt, ?_⟩
    intro hu
    have := (huniq s).mp hu
    omega

/-- Witness for C8 (amended): with agents `"a"` and `"b"` sharing `"x"`,
the shared strength is common and `"y"` is unique. -/
theorem c8_partition_amended_witness :
    ∃ r, get_collaboration_recommendation partStore ["a", "b"]
        = Except.ok (RecResult.ok r) ∧
      "x" ∈ r.common_strengths ∧ "y" ∈ r.unique_strengths := by
  obtain ⟨r, hr, hc, hu, -⟩ :=
    c8_partition_amended partStore ["a", "b"] (by simp) (by decide) (by decide) (by decide)
  exact ⟨r, hr, (hc "x").mpr (by decide), (hu "y").mpr (by decide)⟩

/-! ### Round-trip persistence -/

theorem strItems_roundtrip (l : List String) :
    strItemsOfJson (l.map Json.str) = some l := by
  induction l with
  | nil => rfl
  | cons s rest ih =>
      simp [strItemsOfJson, ih]

theorem profile_roundtrip (p : AgentProfile) :
    profileOfJson (profileToJson p) = some p := by
  obtain ⟨i, r, q, cs, s, a⟩ := p
  simp [profileToJson, profileOfJson, jsonField, natOfJson, ratOfJson, strOfJson,
    strListOfJson, strItems_roundtrip]

/-- Claim C9: serializing the in-memory store to the JSON document and
loading the document into a fresh tracker yields the very same profile map:
every agent id maps to a profile with equal interactions, reliability,
interaction quality, collaboration style, strengths and growth areas. -/
theorem c9_roundtrip (store : Store) :
    storeOfJson (storeToJson store) = some store := by
  simp only [storeToJson, storeOfJson]
  induction store with
  | nil => rfl
  | cons kv rest ih =>
      obtain ⟨k, p⟩ := kv
      simp [profilesOfJson, profile_roundtrip, ih]

/-! ### Falsy optional arguments -/

/-- Claim C10: an empty-string `collaboration_style` and empty
`strengths` / `areas_for_growth` lists behave exactly like absent
arguments — the corresponding profile fields are untouched — while the
interaction count and both running averages are still updated. -/
theorem c10_falsy_args (store : Store) (agent_id : String) (q r : ℚ) :
    (∀ (s a : Option (List String)),
       update_trust store agent_id q r (some "") s a
         = update_trust store agent_id q r none s a) ∧
    (∀ (cs : Option String) (a : Option (List String)),
       update_trust store agent_id q r cs (some []) a
         = update_trust store agent_id q r cs none a) ∧
    (∀ (cs : Option String) (s : Option (List String)),
       update_trust store agent_id q r cs s (some [])
         = update_trust store agent_id q r cs s none) ∧
    ((update_trust store agent_id q r (some "") (some []) (some [])).2.collaboration_style
       = (effProfile store agent_id).collaboration_style) ∧
    ((update_trust store agent_id q r (some "") (some []) (some [])).2.strengths
       = (effProfile store agent_id).strengths) ∧
    ((update_trust store agent_id q r (some "") (some []) (some [])).2.areas_for_growth
       = (effProfile store agent_id).areas_for_growth) ∧
    ((update_trust store agent_id q r (some "") (some []) (some [])).2.interactions
       = (effProfile store agent_id).interactions + 1) ∧
    ((update_trust store agent_id q r (some "") (some []) (some [])).2.reliability
       = ((effProfile store agent_id).reliability
             * ((((effProfile store agent_id).interactions + 1 : Nat) : ℚ) - 1) + r)
           / (((effProfile store agent_id).interactions + 1 : Nat) : ℚ)) ∧
    ((update_trust store agent_id q r (some "") (some []) (some [])).2.interaction_quality
       = ((effProfile store agent_id).interaction_quality
             * ((((effProfile store agent_id).interactions + 1 : Nat) : ℚ) - 1) + q)
           / (((effProfile store agent_id).interactions + 1 : Nat) : ℚ)) :=
  ⟨fun _ _ => rfl, fun _ _ => rfl, fun _ _ => rfl, rfl, rfl, rfl, rfl, rfl, rfl⟩

end TrustNetwork
